import Mathlib

/-!
Verification of the request-encoding / response-navigation core of the
deitel-openai-cpp header-only SDK (include/openai/core.hpp,
include/openai/apis.hpp, include/openai/requests.hpp).

Modelling conventions:
* C++ `std::string` values are modelled as Lean `String`; raw byte strings
  (multipart bodies, data URLs) are modelled as `List Char`, one `Char` per
  byte, and binary payloads (`std::vector<std::uint8_t>`) as `List Nat`.
* `nlohmann::json` is modelled by the inductive `Json` below; objects are
  association lists with unique keys (nlohmann stores objects in a
  `std::map`).  Numeric JSON values are restricted to integers: no claim
  under verification depends on floating-point formatting.
* C++ functions that `throw` are modelled with `Except`, with one error
  inductive per error family; the constructor names follow the design
  document's error taxonomy, and each constructor is noted at the
  modelling site with the C++ `throw` it stands for.
-/

/-- Shallow embedding of a parsed `nlohmann::json` value. -/
inductive Json where
  | null : Json
  | bool (b : Bool) : Json
  | num (n : Int) : Json
  | str (s : String) : Json
  | arr (items : List Json) : Json
  | obj (fields : List (String × Json)) : Json

/-- `j.contains(k) ? j.at(k) : none` on a parsed value: key lookup, `none`
on non-objects (nlohmann `contains` is false on non-objects). -/
def getKey (j : Json) (k : String) : Option Json :=
  match j with
  | .obj fields => fields.lookup k
  | _ => none

/-- nlohmann `is_null`. -/
def Json.isNull : Json → Bool
  | .null => true
  | _ => false

/-- nlohmann `is_array`. -/
def Json.isArr : Json → Bool
  | .arr _ => true
  | _ => false

/-- Lower-case hexadecimal digit, used by the JSON string escaper. -/
def hexDigit (n : Nat) : Char :=
  "0123456789abcdef".data.getD n '0'

/-- Escape one character the way `nlohmann::json::dump` serializes string
contents. -/
def escapeChar (c : Char) : String :=
  if c = '"' then "\\\""
  else if c = '\\' then "\\\\"
  else if c = Char.ofNat 8 then "\\b"
  else if c = Char.ofNat 12 then "\\f"
  else if c = '\n' then "\\n"
  else if c = Char.ofNat 13 then "\\r"
  else if c = '\t' then "\\t"
  else if c.toNat < 32 then
    "\\u00" ++ String.mk [hexDigit (c.toNat / 16), hexDigit (c.toNat % 16)]
  else String.mk [c]

/-- Escape a whole string for JSON serialization. -/
def escapeString (s : String) : String :=
  String.join (s.data.map escapeChar)

mutual

/-- Compact serialization, modelling `nlohmann::json::dump()` (no spacing). -/
def Json.dump : Json → String
  | .null => "null"
  | .bool true => "true"
  | .bool false => "false"
  | .num n => toString n
  | .str s => "\"" ++ escapeString s ++ "\""
  | .arr items => "[" ++ dumpList items ++ "]"
  | .obj fields => "\x7b" ++ dumpObj fields ++ "\x7d"

/-- Comma-separated serialization of an array's elements. -/
def dumpList : List Json → String
  | [] => ""
  | [x] => x.dump
  | x :: y :: rest => x.dump ++ "," ++ dumpList (y :: rest)

/-- Comma-separated serialization of an object's key/value pairs. -/
def dumpObj : List (String × Json) → String
  | [] => ""
  | [(k, v)] => "\"" ++ escapeString k ++ "\":" ++ v.dump
  | (k, v) :: kv :: rest =>
      "\"" ++ escapeString k ++ "\":" ++ v.dump ++ "," ++ dumpObj (kv :: rest)

end

/-- Errors raised by the response-navigation helpers in `core.hpp`.  All of
them are `std::runtime_error` throws in C++; the constructors follow the
design document's taxonomy, one per distinct failure condition:
* `remoteError ty msg` — `first_text_output`'s "OpenAI error (ty): msg";
* `noMessageBlock` — `first_text_output`'s "response contains no output
  items" and "no message block found in output";
* `noContent` — `first_text_output`'s "message block contains no content[]";
* `noTextField` — `first_text_output`'s "no text field found in content";
* `noToolCall` — `first_tool_call_output`'s "response has no output array"
  and "no tool call found for requested tool type" (and the matching throws
  in `first_image_generation_call`);
* `missingResult` — "image_generation_call has no result field";
* `malformedResult` — "result is neither a string nor a non-empty array of
  strings". -/
inductive NavError where
  | remoteError (ty msg : String) : NavError
  | noMessageBlock : NavError
  | noContent : NavError
  | noTextField : NavError
  | noToolCall : NavError
  | missingResult : NavError
  | malformedResult : NavError
deriving DecidableEq

/-- The error-envelope check at the top of `util::first_text_output`
(core.hpp lines 421-437): if the response carries a non-null `error`
object, build a `remoteError` whose message defaults to "unknown error"
and whose type defaults to "error" when those sub-fields are missing or
non-string. -/
def errorCheck (response : Json) : Option NavError :=
  match getKey response "error" with
  | some err =>
      if err.isNull then none
      else
        some (.remoteError
          (match getKey err "type" with
           | some (.str t) => t
           | _ => "error")
          (match getKey err "message" with
           | some (.str m) => m
           | _ => "unknown error"))
  | none => none

/-- An output item's discriminant check `item.at("type") == "message"`
guarded by `contains`/`is_string` (core.hpp lines 451-457). -/
def isMessageItem (item : Json) : Bool :=
  match getKey item "type" with
  | some (.str t) => t == "message"
  | _ => false

/-- The content/text part of `util::first_text_output` (core.hpp lines
465-481): require a non-empty `content` array, then a string `text` field
on its first entry. -/
def messageText (messageBlock : Json) : Except NavError String :=
  match getKey messageBlock "content" with
  | some (.arr (content0 :: _)) =>
      match getKey content0 "text" with
      | some (.str t) => .ok t
      | _ => .error .noTextField
  | _ => .error .noContent

/-- `util::first_text_output` (core.hpp lines 418-482): error envelope
first, then the first `"message"` item of the `output` array, then the
`text` of its first content entry. -/
def first_text_output (response : Json) : Except NavError String :=
  match errorCheck response with
  | some e => .error e
  | none =>
      match getKey response "output" with
      | some (.arr items) =>
          if items.isEmpty then .error .noMessageBlock
          else
            match items.find? isMessageItem with
            | some messageBlock => messageText messageBlock
            | none => .error .noMessageBlock
      | _ => .error .noMessageBlock

/-- The matching rule of `first_tool_call_output` (core.hpp lines 778-797):
an item matches if its string discriminant equals `toolType + "_call"`, or
equals `"tool_call"` with a string `tool_name` equal to `toolType`; items
without a string `type` are skipped. -/
def toolMatches (toolType : String) (item : Json) : Bool :=
  match getKey item "type" with
  | some (.str t) =>
      t == toolType ++ "_call" ||
        (t == "tool_call" &&
          (match getKey item "tool_name" with
           | some (.str n) => n == toolType
           | _ => false))
  | _ => false

/-- `first_tool_call_output` (core.hpp lines 765-801): first matching item
of the `output` array; the "response has no output array" and "no tool
call found" throws are both `noToolCall` in the taxonomy. -/
def first_tool_call_output (response : Json) (toolType : String) :
    Except NavError Json :=
  match getKey response "output" with
  | some (.arr items) =>
      match items.find? (toolMatches toolType) with
      | some item => .ok item
      | none => .error .noToolCall
  | _ => .error .noToolCall

/-- `util::first_image_generation_call` (core.hpp lines 485-505): first
item whose discriminant is exactly `"image_generation_call"`. -/
def first_image_generation_call (response : Json) : Except NavError Json :=
  match getKey response "output" with
  | some (.arr items) =>
      match items.find? (fun item =>
          match getKey item "type" with
          | some (.str t) => t == "image_generation_call"
          | _ => false) with
      | some item => .ok item
      | none => .error .noToolCall
  | _ => .error .noToolCall

/-- The `result`-field reading shared by `first_image_output` (core.hpp
lines 815-834) and `util::first_image_base64_output` (lines 512-531):
return a string result as is, or the first element of a non-empty array
whose first element is a string; `missingResult` when the field is absent,
`malformedResult` for every other shape. -/
def readResultField (call : Json) : Except NavError String :=
  match getKey call "result" with
  | none => .error .missingResult
  | some (.str s) => .ok s
  | some (.arr (first :: _)) =>
      match first with
      | .str s => .ok s
      | _ => .error .malformedResult
  | some _ => .error .malformedResult

/-- `first_image_output` (core.hpp lines 810-835): the `result` of the
first `image_generation` tool call. -/
def first_image_output (response : Json) : Except NavError String :=
  match first_tool_call_output response "image_generation" with
  | .ok call => readResultField call
  | .error e => .error e

/-- `util::first_image_base64_output` (core.hpp lines 508-532): the
`result` of the first `image_generation_call` item. -/
def first_image_base64_output (response : Json) : Except NavError String :=
  match first_image_generation_call response with
  | .ok call => readResultField call
  | .error e => .error e

/-- The RFC-4648 base64 alphabet character at index `n` (cppcodec
`base64_rfc4648`). -/
def b64Char (n : Nat) : Char :=
  "ABCDEFGHIJKLMNOPQRSTUVWXYZabcdefghijklmnopqrstuvwxyz0123456789+/".data.getD n '?'

/-- `util::bytes_to_base64` / cppcodec `base64_rfc4648::encode`: standard
base64 with `=` padding and no line wrapping, one `Char` per output byte. -/
def encodeBase64 : List Nat → List Char
  | [] => []
  | [a] => [b64Char (a / 4), b64Char (a % 4 * 16), '=', '=']
  | [a, b] => [b64Char (a / 4), b64Char (a % 4 * 16 + b / 16), b64Char (b % 16 * 4), '=']
  | a :: b :: c :: rest =>
      b64Char (a / 4) :: b64Char (a % 4 * 16 + b / 16) ::
        b64Char (b % 16 * 4 + c / 64) :: b64Char (c % 64) :: encodeBase64 rest

/-- `util::bytes_to_data_url` (core.hpp lines 260-266):
`"data:" + mime_type + ";base64," + b64`, as a byte string. -/
def bytes_to_data_url (bytes : List Nat) (mimeType : String) : List Char :=
  "data:".data ++ mimeType.data ++ ";base64,".data ++ encodeBase64 bytes

/-- The two `std::invalid_argument` throws of `util::split_data_url`:
missing `data:` prefix, missing `;base64,` segment. -/
inductive FormatError where
  | missingPrefix : FormatError
  | missingMarker : FormatError
deriving DecidableEq

/-- `std::string::find(pat)`: index of the first occurrence of `pat` as a
substring, `none` when there is none (`npos`). -/
def findSub (pat : List Char) : List Char → Option Nat
  | [] => if pat.isEmpty then some 0 else none
  | c :: rest =>
      if pat.isPrefixOf (c :: rest) then some 0
      else (findSub pat rest).map (· + 1)

/-- `util::split_data_url` (core.hpp lines 276-299): check the `data:`
prefix, locate the first `;base64,` marker, and return the MIME substring
between them together with the payload after the marker. -/
def split_data_url (dataUrl : List Char) : Except FormatError (List Char × List Char) :=
  if "data:".data.isPrefixOf dataUrl then
    match findSub ";base64,".data dataUrl with
    | some markerPos =>
        .ok ((dataUrl.drop 5).take (markerPos - 5), dataUrl.drop (markerPos + 8))
    | none => .error .missingMarker
  else .error .missingPrefix

/-- `MultipartField` (core.hpp lines 549-552). -/
structure MultipartField where
  name : String
  value : String
deriving DecidableEq

/-- `MultipartFile` (core.hpp lines 557-562); `data` is the raw byte
payload. -/
structure MultipartFile where
  name : String
  filename : String
  content_type : String
  data : List Nat
deriving DecidableEq

/-- The bytes one text field contributes to the body (the three `<<`
statements of the fields loop, core.hpp lines 597-602). -/
def renderField (boundary : String) (f : MultipartField) : List Char :=
  "--".data ++ boundary.data ++ "\r\n".data ++
    "Content-Disposition: form-data; name=\"".data ++ f.name.data ++
    "\"\r\n\r\n".data ++ f.value.data ++ "\r\n".data

/-- The bytes one file part contributes to the body (the files loop,
core.hpp lines 604-613). -/
def renderFile (boundary : String) (f : MultipartFile) : List Char :=
  "--".data ++ boundary.data ++ "\r\n".data ++
    "Content-Disposition: form-data; name=\"".data ++ f.name.data ++
    "\"; filename=\"".data ++ f.filename.data ++ "\"\r\n".data ++
    "Content-Type: ".data ++ f.content_type.data ++ "\r\n\r\n".data ++
    f.data.map Char.ofNat ++ "\r\n".data

/-- `build_multipart_body` (core.hpp lines 590-617): one output stream,
a loop over the text fields, a loop over the file parts, then the closing
`--boundary--` marker. -/
def build_multipart_body (boundary : String) (fields : List MultipartField)
    (files : List MultipartFile) : List Char :=
  let afterFields := fields.foldl (fun acc f => acc ++ renderField boundary f) []
  let afterFiles := files.foldl (fun acc f => acc ++ renderFile boundary f) afterFields
  afterFiles ++ ("--".data ++ boundary.data ++ "--\r\n".data)

/-- One `body[key] = value` assignment on a JSON object under construction
(nlohmann `operator[]=`): replace the value of an existing key, otherwise
insert the pair.  (nlohmann keeps object keys in a `std::map`; this
association-list model preserves lookup semantics, which is all the
serialized body's field values depend on.) -/
def setKey (obj : List (String × Json)) (k : String) (v : Json) :
    List (String × Json) :=
  match obj with
  | [] => [(k, v)]
  | (k', v') :: rest => if k' = k then (k, v) :: rest else (k', v') :: setKey rest k v

/-- `if (r.field) body[key] = *r.field;` for an optional field. -/
def optSet (obj : List (String × Json)) (k : String) (v : Option Json) :
    List (String × Json) :=
  match v with
  | some x => setKey obj k x
  | none => obj

/-- `ResponsesRequest` (requests.hpp lines 69-139).  `temperature` and
`top_p` carry the API default `1.0` as their initial value; the double
fields are modelled at their integral values (no claim depends on decimal
formatting).  The `extra` object is modelled as its (key-sorted, hence
key-distinct) entry list. -/
structure ResponsesRequest where
  model : String
  instructions : Option String := none
  input : Json
  metadata : Option Json := none
  temperature : Option Int := some 1
  top_p : Option Int := some 1
  max_output_tokens : Option Int := none
  previous_response_id : Option String := none
  reasoning : Option Json := none
  text : Option Json := none
  tools : Option Json := none
  tool_choice : Option Json := none
  truncation : Option String := none
  includeList : Option Json := none
  parallel_tool_calls : Option Bool := none
  stream : Option Bool := none
  audio : Option Json := none
  store : Option Bool := none
  user : Option String := none
  service_tier : Option String := none
  extra : List (String × Json) := []

/-- The JSON body built by `ResponsesAPI::create_request` (apis.hpp lines
185-220): required fields, then each present optional field, then the
extension-map overlay loop `body[it.key()] = it.value()`.  (The C++ field
`include` is named `includeList` here because `include` is reserved in
Lean.) -/
def responsesBody (r : ResponsesRequest) : List (String × Json) :=
  let body := setKey [] "model" (.str r.model)
  let body := setKey body "input" r.input
  let body := optSet body "instructions" (r.instructions.map .str)
  let body := optSet body "metadata" r.metadata
  let body := optSet body "temperature" (r.temperature.map .num)
  let body := optSet body "top_p" (r.top_p.map .num)
  let body := optSet body "max_output_tokens" (r.max_output_tokens.map .num)
  let body := optSet body "previous_response_id" (r.previous_response_id.map .str)
  let body := optSet body "reasoning" r.reasoning
  let body := optSet body "text" r.text
  let body := optSet body "tools" r.tools
  let body := optSet body "tool_choice" r.tool_choice
  let body := optSet body "truncation" (r.truncation.map .str)
  let body := optSet body "include" r.includeList
  let body := optSet body "parallel_tool_calls" (r.parallel_tool_calls.map .bool)
  let body := optSet body "stream" (r.stream.map .bool)
  let body := optSet body "audio" r.audio
  let body := optSet body "store" (r.store.map .bool)
  let body := optSet body "user" (r.user.map .str)
  let body := optSet body "service_tier" (r.service_tier.map .str)
  r.extra.foldl (fun acc kv => setKey acc kv.1 kv.2) body

/-- `ImagesGenerateRequest` (requests.hpp lines 157-184). -/
structure ImagesGenerateRequest where
  model : String
  prompt : String
  n : Option Int := none
  size : Option String := none
  quality : Option String := none
  style : Option String := none
  response_format : Option String := none
  user : Option String := none
  extra : List (String × Json) := []

/-- The JSON body built by `ImagesAPI::generate_request` (apis.hpp lines
248-272). -/
def imagesGenerateBody (r : ImagesGenerateRequest) : List (String × Json) :=
  let body := setKey [] "model" (.str r.model)
  let body := setKey body "prompt" (.str r.prompt)
  let body := optSet body "n" (r.n.map .num)
  let body := optSet body "size" (r.size.map .str)
  let body := optSet body "quality" (r.quality.map .str)
  let body := optSet body "style" (r.style.map .str)
  let body := optSet body "response_format" (r.response_format.map .str)
  let body := optSet body "user" (r.user.map .str)
  r.extra.foldl (fun acc kv => setKey acc kv.1 kv.2) body

/-- `ImageEditRequest` (requests.hpp lines 193-226). -/
structure ImageEditRequest where
  model : String
  image_path : String
  mask_path : Option String := none
  prompt : Option String := none
  n : Option Int := none
  size : Option String := none
  quality : Option String := none
  style : Option String := none
  output_format : Option String := none
  user : Option String := none
  extra : List (String × Json) := []

/-- `if (r.field) fields.push_back({name, *r.field});` for an optional
string field of a multipart request. -/
def optMultipartField (name : String) (v : Option String) : List MultipartField :=
  match v with
  | some s => [⟨name, s⟩]
  | none => []

/-- The text-field list built by `ImagesAPI::edit_request` (apis.hpp lines
290-311): the required `model`, each present optional field, then one
field per extension-map entry with the entry's value serialized by
`dump()`. -/
def editRequestFields (r : ImageEditRequest) : List MultipartField :=
  let fields : List MultipartField := [⟨"model", r.model⟩]
  let fields := fields ++ optMultipartField "prompt" r.prompt
  let fields := fields ++
    (match r.n with
     | some k => [⟨"n", toString k⟩]
     | none => [])
  let fields := fields ++ optMultipartField "size" r.size
  let fields := fields ++ optMultipartField "quality" r.quality
  let fields := fields ++ optMultipartField "style" r.style
  let fields := fields ++ optMultipartField "output_format" r.output_format
  let fields := fields ++ optMultipartField "user" r.user
  r.extra.foldl (fun acc kv => acc ++ [⟨kv.1, kv.2.dump⟩]) fields

/-- `AudioTranscriptionRequest` (requests.hpp lines 272-293); the double
field `temperature` is modelled at its integral values. -/
structure AudioTranscriptionRequest where
  model : String
  file_path : String
  language : Option String := none
  prompt : Option String := none
  response_format : Option String := none
  temperature : Option Int := none
  extra : List (String × Json) := []

/-- `std::to_string(double)` at an integral value: six fixed decimal
places. -/
def doubleToString (n : Int) : String :=
  toString n ++ ".000000"

/-- The text-field list built by `TranscriptionsAPI::create_request`
(apis.hpp lines 469-509): required `model`, the present optional fields,
then one field per extension-map entry with the value serialized by
`dump()`. -/
def transcriptionFields (r : AudioTranscriptionRequest) : List MultipartField :=
  let fields : List MultipartField := [⟨"model", r.model⟩]
  let fields := fields ++ optMultipartField "language" r.language
  let fields := fields ++ optMultipartField "prompt" r.prompt
  let fields := fields ++ optMultipartField "response_format" r.response_format
  let fields := fields ++
    (match r.temperature with
     | some t => [⟨"temperature", doubleToString t⟩]
     | none => [])
  r.extra.foldl (fun acc kv => acc ++ [⟨kv.1, kv.2.dump⟩]) fields

/-! ### Shared helper lemmas -/

theorem foldl_append_eq_flatten {α β : Type} (g : β → List α) :
    ∀ (l : List β) (init : List α),
      l.foldl (fun acc x => acc ++ g x) init = init ++ (l.map g).flatten := by
  intro l
  induction l with
  | nil => intro init; simp
  | cons x xs ih =>
      intro init
      simp only [List.foldl_cons, List.map_cons, List.flatten_cons, ih,
        List.append_assoc]

theorem foldl_push_eq_map {α β : Type} (g : β → α) :
    ∀ (l : List β) (init : List α),
      l.foldl (fun acc x => acc ++ [g x]) init = init ++ l.map g := by
  intro l
  induction l with
  | nil => intro init; simp
  | cons x xs ih =>
      intro init
      simp only [List.foldl_cons, List.map_cons, ih]
      simp

theorem find?_append_of_forall_neg {α : Type} (p : α → Bool) :
    ∀ (pre l : List α), (∀ x ∈ pre, p x = false) →
      List.find? p (pre ++ l) = List.find? p l := by
  intro pre
  induction pre with
  | nil => intro l _; simp
  | cons x xs ih =>
      intro l h
      rw [List.cons_append, List.find?_cons_of_neg]
      · exact ih l (fun y hy => h y (List.mem_cons_of_mem x hy))
      · simp [h x (List.mem_cons_self x xs)]

/-! ### Claim C4: multipart body layout -/

set_option maxRecDepth 100000 in
/-- Claim C4: `build_multipart_body` renders, in order, one part per text
field (`--boundary`, a `Content-Disposition: form-data; name="…"` header,
a blank line, the raw value, CRLF), then one part per file (additionally
declaring `filename="…"` and a `Content-Type` header before the raw
payload bytes), and terminates the body with `--boundary--` and CRLF; on
the concrete example (boundary `B1`, one `model`/`gpt-x` field, one
`image`/`a.png`/`image/png` file with payload bytes 0x89 0x50) the body
starts with the rendered text field, contains the rendered file part, and
ends with `--B1--\r\n`. -/
theorem build_multipart_body_layout :
    (∀ (boundary : String) (fields : List MultipartField)
        (files : List MultipartFile),
      build_multipart_body boundary fields files =
        (fields.map (fun f =>
          "--".data ++ boundary.data ++ "\r\n".data ++
            "Content-Disposition: form-data; name=\"".data ++ f.name.data ++
            "\"\r\n\r\n".data ++ f.value.data ++ "\r\n".data)).flatten ++
        ((files.map (fun f =>
          "--".data ++ boundary.data ++ "\r\n".data ++
            "Content-Disposition: form-data; name=\"".data ++ f.name.data ++
            "\"; filename=\"".data ++ f.filename.data ++ "\"\r\n".data ++
            "Content-Type: ".data ++ f.content_type.data ++ "\r\n\r\n".data ++
            f.data.map Char.ofNat ++ "\r\n".data)).flatten ++
         ("--".data ++ boundary.data ++ "--\r\n".data))) ∧
    ("--B1\r\nContent-Disposition: form-data; name=\"model\"\r\n\r\ngpt-x\r\n".data <+:
        build_multipart_body "B1" [⟨"model", "gpt-x"⟩]
          [⟨"image", "a.png", "image/png", [0x89, 0x50]⟩]) ∧
    (("--B1\r\nContent-Disposition: form-data; name=\"image\"; filename=\"a.png\"\r\nContent-Type: image/png\r\n\r\n".data ++
        [Char.ofNat 0x89, Char.ofNat 0x50] ++ "\r\n".data) <:+:
        build_multipart_body "B1" [⟨"model", "gpt-x"⟩]
          [⟨"image", "a.png", "image/png", [0x89, 0x50]⟩]) ∧
    ("--B1--\r\n".data <:+
        build_multipart_body "B1" [⟨"model", "gpt-x"⟩]
          [⟨"image", "a.png", "image/png", [0x89, 0x50]⟩]) := by
  refine ⟨fun boundary fields files => ?_, by decide, by decide, by decide⟩
  simp only [build_multipart_body, foldl_append_eq_flatten, List.nil_append,
    List.append_assoc, renderField, renderFile]

/-! ### Claim C9: all text fields precede all file parts -/

/-- Claim C9: the multipart body is always the concatenation of the
rendered text fields (in input order), then the rendered file parts (in
input order), then the closing marker — a file part can never be
interleaved between two text fields. -/
theorem build_multipart_body_fields_before_files :
    ∀ (boundary : String) (fields : List MultipartField)
      (files : List MultipartFile),
      build_multipart_body boundary fields files =
        (fields.map (renderField boundary)).flatten ++
          ((files.map (renderFile boundary)).flatten ++
            ("--".data ++ boundary.data ++ "--\r\n".data)) := by
  intro boundary fields files
  simp only [build_multipart_body, foldl_append_eq_flatten, List.nil_append,
    List.append_assoc]

/-! ### Lookup lemmas for the JSON-body overlay -/

theorem lookup_setKey_self (k : String) (v : Json) :
    ∀ (obj : List (String × Json)), (setKey obj k v).lookup k = some v := by
  intro obj
  induction obj with
  | nil => simp [setKey, List.lookup]
  | cons kv rest ih =>
      obtain ⟨k', v'⟩ := kv
      by_cases h : k' = k
      · simp [setKey, h, List.lookup]
      · simp only [setKey, if_neg h, List.lookup_cons]
        have : (k == k') = false := by
          simp [beq_eq_false_iff_ne]
          exact fun hk => h hk.symm
        simp [this, ih]

theorem lookup_setKey_of_ne (k k' : String) (v : Json) (h : k' ≠ k) :
    ∀ (obj : List (String × Json)),
      (setKey obj k v).lookup k' = obj.lookup k' := by
  intro obj
  induction obj with
  | nil =>
      simp only [setKey, List.lookup_cons, List.lookup_nil]
      have : (k' == k) = false := by simpa [beq_eq_false_iff_ne] using h
      simp [this]
  | cons kv rest ih =>
      obtain ⟨k₀, v₀⟩ := kv
      by_cases h₀ : k₀ = k
      · subst h₀
        have : (k' == k₀) = false := by simpa [beq_eq_false_iff_ne] using h
        simp [setKey, List.lookup_cons, this]
      · simp only [setKey, if_neg h₀, List.lookup_cons]
        cases hbeq : (k' == k₀) <;> simp [ih]

theorem lookup_foldl_setKey_not_mem (k : String) :
    ∀ (l : List (String × Json)) (obj : List (String × Json)),
      k ∉ l.map Prod.fst →
      (l.foldl (fun acc kv => setKey acc kv.1 kv.2) obj).lookup k = obj.lookup k := by
  intro l
  induction l with
  | nil => intro obj _; rfl
  | cons kv rest ih =>
      intro obj h
      obtain ⟨k₀, v₀⟩ := kv
      simp only [List.map_cons, List.mem_cons, not_or] at h
      rw [List.foldl_cons, ih _ h.2, lookup_setKey_of_ne _ _ _ h.1]

theorem lookup_foldl_setKey_mem (k : String) (v : Json) :
    ∀ (l : List (String × Json)) (obj : List (String × Json)),
      (l.map Prod.fst).Nodup → (k, v) ∈ l →
      (l.foldl (fun acc kv => setKey acc kv.1 kv.2) obj).lookup k = some v := by
  intro l
  induction l with
  | nil => intro obj _ hmem; cases hmem
  | cons kv rest ih =>
      intro obj hnd hmem
      obtain ⟨k₀, v₀⟩ := kv
      simp only [List.map_cons, List.nodup_cons] at hnd
      rcases List.mem_cons.mp hmem with heq | htail
      · have hk : k₀ = k := (congrArg Prod.fst heq).symm
        have hv : v₀ = v := (congrArg Prod.snd heq).symm
        subst hk; subst hv
        rw [List.foldl_cons, lookup_foldl_setKey_not_mem _ _ _ hnd.1,
          lookup_setKey_self]
      · exact ih _ hnd.2 htail

/-! ### Claim C2: extension-map override (corrected) -/

/-- Counterexample to claim C2: for the image-edit (multipart) endpoint
family, a colliding extension-map key does NOT overwrite the typed field.
The descriptor with typed `model="a"` and extension entry
`{"model":"b"}` serializes with TWO `model` fields — the typed value
`a` first, then the JSON-serialized extension value `"b"` — so the wire
body does not carry `model` equal to `b` ("last write wins" fails for
this endpoint family). -/
theorem extension_override_multipart_counterexample :
    editRequestFields
        { model := "a", image_path := "in.png",
          extra := [("model", Json.str "b")] } =
      [⟨"model", "a"⟩, ⟨"model", "\"b\""⟩] ∧
    ¬ (∀ f ∈ editRequestFields
        { model := "a", image_path := "in.png",
          extra := [("model", Json.str "b")] },
        f.name = "model" → f.value = "b") := by
  constructor
  · decide
  · intro h
    have := h ⟨"model", "a"⟩ (by decide) rfl
    simp at this

/-- Claim C2 as amended: for the JSON-bodied endpoint families the
extension map is merged after all typed fields with overwrite semantics,
so a colliding key's value in the wire body is the extension-map value
("last write wins"); for the multipart endpoint families (image edit,
transcription) each extension entry is instead appended as an additional
text field carrying the JSON serialization of its value, after and in
addition to the typed fields — a colliding key appears twice rather than
being overwritten. -/
theorem extension_map_merge_amended :
    (∀ (r : ResponsesRequest) (k : String) (v : Json),
        (r.extra.map Prod.fst).Nodup → (k, v) ∈ r.extra →
        (responsesBody r).lookup k = some v) ∧
    (∀ (r : ImagesGenerateRequest) (k : String) (v : Json),
        (r.extra.map Prod.fst).Nodup → (k, v) ∈ r.extra →
        (imagesGenerateBody r).lookup k = some v) ∧
    (∀ (r : ImageEditRequest) (k : String) (v : Json), (k, v) ∈ r.extra →
        MultipartField.mk k v.dump ∈ editRequestFields r) ∧
    (∀ r : ImageEditRequest,
        MultipartField.mk "model" r.model ∈ editRequestFields r) := by
  refine ⟨?_, ?_, ?_, ?_⟩
  · intro r k v hnd hmem
    exact lookup_foldl_setKey_mem k v r.extra _ hnd hmem
  · intro r k v hnd hmem
    exact lookup_foldl_setKey_mem k v r.extra _ hnd hmem
  · intro r k v hmem
    rw [editRequestFields, foldl_push_eq_map]
    exact List.mem_append_right _
      (List.mem_map_of_mem (fun kv => MultipartField.mk kv.1 kv.2.dump) hmem)
  · intro r
    rw [editRequestFields, foldl_push_eq_map]
    exact List.mem_append_left _ (by simp)

/-- Witness for `extension_map_merge_amended` at a concrete descriptor:
a Responses descriptor with typed `model="a"` and extension entry
`{"model":"b"}` serializes with `model` equal to `"b"`, and the
corresponding image-edit descriptor's field list carries the extra entry
as `"b"` with quotes. -/
theorem extension_map_merge_amended_witness :
    (responsesBody
        { model := "a", input := Json.str "hi",
          extra := [("model", Json.str "b")] }).lookup "model" =
      some (Json.str "b") ∧
    MultipartField.mk "model" (Json.str "b").dump ∈
      editRequestFields
        { model := "a", image_path := "in.png",
          extra := [("model", Json.str "b")] } :=
  ⟨extension_map_merge_amended.1 _ "model" (Json.str "b") (by simp) (by simp),
   extension_map_merge_amended.2.2.1 _ "model" (Json.str "b") (by simp)⟩

/-! ### Claim C3: required-field validation (corrected) -/

/-- Counterexample to claim C3: no request mapper validates required
fields.  A Responses descriptor whose required `model` and `input` are
empty still produces a wire body — carrying the empty values — instead of
failing with `InvalidDescriptor`; likewise for the images-generate
mapper. -/
theorem required_field_counterexample :
    responsesBody
        { model := "", input := Json.str "",
          temperature := none, top_p := none } =
      [("model", Json.str ""), ("input", Json.str "")] ∧
    imagesGenerateBody { model := "", prompt := "" } =
      [("model", Json.str ""), ("prompt", Json.str "")] :=
  ⟨rfl, rfl⟩

/-- Claim C3 as amended: the request mappers perform no required-field
validation at all — for every descriptor, including one whose required
fields are empty strings, a wire body is produced whose first entries are
exactly the required fields with whatever values the descriptor holds
(the only emptiness check in the client is `OpenAIClient`'s constructor
check on `api_key`). -/
theorem required_field_no_validation :
    (∀ (model : String) (input : Json),
        responsesBody
            { model := model, input := input,
              temperature := none, top_p := none } =
          [("model", Json.str model), ("input", input)]) ∧
    (∀ model prompt : String,
        imagesGenerateBody { model := model, prompt := prompt } =
          [("model", Json.str model), ("prompt", Json.str prompt)]) :=
  ⟨fun _ _ => rfl, fun _ _ => rfl⟩

/-! ### Claim C10: extension entries of multipart requests are
JSON-serialized -/

/-- Claim C10: for the file-carrying requests (image edit, transcription)
every extension-map entry is appended to the field list — after all typed
fields — as a text field whose value is the JSON serialization
(`dump()`) of the entry's value; so a string-valued entry `"b"` is
rendered with surrounding double quotes, unlike a typed string field,
which is rendered raw. -/
theorem multipart_extra_fields_json_dumped :
    (∀ r : ImageEditRequest,
        editRequestFields r =
          editRequestFields { r with extra := [] } ++
            r.extra.map (fun kv => MultipartField.mk kv.1 kv.2.dump)) ∧
    (∀ r : AudioTranscriptionRequest,
        transcriptionFields r =
          transcriptionFields { r with extra := [] } ++
            r.extra.map (fun kv => MultipartField.mk kv.1 kv.2.dump)) ∧
    editRequestFields
        { model := "b", image_path := "in.png",
          extra := [("opt", Json.str "b")] } =
      [⟨"model", "b"⟩, ⟨"opt", "\"b\""⟩] := by
  refine ⟨fun r => ?_, fun r => ?_, by decide⟩
  · simp only [editRequestFields, foldl_push_eq_map, List.map_nil,
      List.append_nil]
  · simp only [transcriptionFields, foldl_push_eq_map, List.map_nil,
      List.append_nil]

/-! ### Claim C6: first-text extraction -/

/-- Claim C6: on a response without an error object, `first_text_output`
scans `output` in order and returns the `text` of the first content entry
of the first item whose discriminant is `"message"` — later message items
and later content entries are never consulted; it fails `noMessageBlock`
when `output` is absent, not an array, empty, or holds no message item;
`noContent` when the matched message's `content` list is absent or empty;
`noTextField` when the first content entry has no string `text` field;
and the spec's example output yields `"hello"`. -/
theorem first_text_output_spec (response : Json)
    (herr : getKey response "error" = none) :
    (getKey response "output" = none →
        first_text_output response = .error .noMessageBlock) ∧
    (∀ j, getKey response "output" = some j → j.isArr = false →
        first_text_output response = .error .noMessageBlock) ∧
    (getKey response "output" = some (.arr []) →
        first_text_output response = .error .noMessageBlock) ∧
    (∀ items, getKey response "output" = some (.arr items) →
        (∀ x ∈ items, isMessageItem x = false) →
        first_text_output response = .error .noMessageBlock) ∧
    (∀ pre msg rest,
        getKey response "output" = some (.arr (pre ++ msg :: rest)) →
        (∀ x ∈ pre, isMessageItem x = false) → isMessageItem msg = true →
        first_text_output response = messageText msg) ∧
    (∀ msg, getKey msg "content" = none →
        messageText msg = .error .noContent) ∧
    (∀ msg j, getKey msg "content" = some j → j.isArr = false →
        messageText msg = .error .noContent) ∧
    (∀ msg, getKey msg "content" = some (.arr []) →
        messageText msg = .error .noContent) ∧
    (∀ msg c rest t, getKey msg "content" = some (.arr (c :: rest)) →
        getKey c "text" = some (.str t) → messageText msg = .ok t) ∧
    (∀ msg c rest, getKey msg "content" = some (.arr (c :: rest)) →
        getKey c "text" = none → messageText msg = .error .noTextField) ∧
    (∀ msg c rest j, getKey msg "content" = some (.arr (c :: rest)) →
        getKey c "text" = some j → (∀ s, j ≠ .str s) →
        messageText msg = .error .noTextField) ∧
    (first_text_output (Json.obj [("output", Json.arr
        [Json.obj [("type", Json.str "reasoning")],
         Json.obj [("type", Json.str "message"),
           ("content", Json.arr [Json.obj [("text", Json.str "hello")]])],
         Json.obj [("type", Json.str "message"),
           ("content", Json.arr [Json.obj [("text", Json.str "world")]])]])]) =
      .ok "hello") := by
  have herr' : errorCheck response = none := by simp [errorCheck, herr]
  refine ⟨?_, ?_, ?_, ?_, ?_, ?_, ?_, ?_, ?_, ?_, ?_, rfl⟩
  · intro h; simp [first_text_output, herr', h]
  · intro j hj harr
    cases j <;> simp_all [first_text_output, herr', Json.isArr]
  · intro h; simp [first_text_output, herr', h]
  · intro items h hall
    cases items with
    | nil => simp [first_text_output, herr', h]
    | cons a rest =>
        have hfind : List.find? isMessageItem (a :: rest) = none :=
          List.find?_eq_none.mpr (by intro x hx; simp [hall x hx])
        simp [first_text_output, herr', h, hfind]
  · intro pre msg rest h hpre hmsg
    have hne : ((pre ++ msg :: rest).isEmpty) = false := by
      cases pre <;> rfl
    have hfind : List.find? isMessageItem (pre ++ msg :: rest) = some msg := by
      rw [find?_append_of_forall_neg isMessageItem pre _ hpre,
        List.find?_cons_of_pos _ hmsg]
    simp [first_text_output, herr', h, hne, hfind]
  · intro msg h; simp [messageText, h]
  · intro msg j hj harr
    cases j with
    | arr items => simp [Json.isArr] at harr
    | _ => simp_all [messageText]
  · intro msg h; simp [messageText, h]
  · intro msg c rest t h ht; simp [messageText, h, ht]
  · intro msg c rest h ht; simp [messageText, h, ht]
  · intro msg c rest j h hj hne
    cases j <;> simp_all [messageText]

/-- Witness for `first_text_output_spec`: an empty-object response has no
error object and no `output` list, and extraction fails with
`noMessageBlock`. -/
theorem first_text_output_spec_witness :
    first_text_output (Json.obj []) = .error .noMessageBlock :=
  (first_text_output_spec (Json.obj []) rfl).1 rfl


/-! ### Claim C7: tool-call extraction -/

/-- Claim C7: `first_tool_call_output` scans `output` in order and
returns the first item whose discriminant equals `toolType + "_call"`
(specialized form) or whose discriminant is `"tool_call"` with a
`tool_name` field equal to `toolType` (generic form), with no fallback to
a later matching item; it fails with `noToolCall` when `output` is
absent, not an array, or no item matches; the spec's two example outputs
return their single call item. -/
theorem first_tool_call_output_spec :
    (∀ (response : Json) (toolType : String),
        getKey response "output" = none →
        first_tool_call_output response toolType = .error .noToolCall) ∧
    (∀ (response : Json) (toolType : String) (j : Json),
        getKey response "output" = some j → j.isArr = false →
        first_tool_call_output response toolType = .error .noToolCall) ∧
    (∀ (response : Json) (toolType : String) (items : List Json),
        getKey response "output" = some (.arr items) →
        (∀ x ∈ items, toolMatches toolType x = false) →
        first_tool_call_output response toolType = .error .noToolCall) ∧
    (∀ (response : Json) (toolType : String) (pre : List Json) (item : Json)
        (rest : List Json),
        getKey response "output" = some (.arr (pre ++ item :: rest)) →
        (∀ x ∈ pre, toolMatches toolType x = false) →
        toolMatches toolType item = true →
        first_tool_call_output response toolType = .ok item) ∧
    (∀ (toolType : String) (item : Json) (t : String),
        getKey item "type" = some (.str t) →
        (toolMatches toolType item = true ↔
          (t = toolType ++ "_call" ∨
            (t = "tool_call" ∧
              getKey item "tool_name" = some (.str toolType))))) ∧
    (first_tool_call_output
        (Json.obj [("output", Json.arr
          [Json.obj [("type", Json.str "image_generation_call"),
            ("result", Json.str "YWJj")]])]) "image_generation" =
      .ok (Json.obj [("type", Json.str "image_generation_call"),
        ("result", Json.str "YWJj")])) ∧
    (first_tool_call_output
        (Json.obj [("output", Json.arr
          [Json.obj [("type", Json.str "tool_call"),
            ("tool_name", Json.str "web_search"),
            ("result", Json.arr [Json.str "r1", Json.str "r2"])]])])
        "web_search" =
      .ok (Json.obj [("type", Json.str "tool_call"),
        ("tool_name", Json.str "web_search"),
        ("result", Json.arr [Json.str "r1", Json.str "r2"])])) := by
  refine ⟨?_, ?_, ?_, ?_, ?_, rfl, rfl⟩
  · intro response toolType h
    simp [first_tool_call_output, h]
  · intro response toolType j hj harr
    cases j <;> simp_all [first_tool_call_output, Json.isArr]
  · intro response toolType items h hall
    have hfind : List.find? (toolMatches toolType) items = none :=
      List.find?_eq_none.mpr (by intro x hx; simp [hall x hx])
    simp [first_tool_call_output, h, hfind]
  · intro response toolType pre item rest h hpre hitem
    have hfind :
        List.find? (toolMatches toolType) (pre ++ item :: rest) = some item := by
      rw [find?_append_of_forall_neg _ pre _ hpre,
        List.find?_cons_of_pos _ hitem]
    simp [first_tool_call_output, h, hfind]
  · intro toolType item t h
    constructor
    · intro hm
      rw [toolMatches, h] at hm
      rcases Bool.or_eq_true_iff.mp hm with h1 | h2
      · exact Or.inl (by simpa using h1)
      · obtain ⟨ht, hn⟩ := Bool.and_eq_true_iff.mp h2
        refine Or.inr ⟨by simpa using ht, ?_⟩
        rcases hgn : getKey item "tool_name" with _ | j
        · rw [hgn] at hn; simp at hn
        · cases j <;> rw [hgn] at hn <;> simp_all
    · intro hor
      rw [toolMatches, h]
      rcases hor with h1 | ⟨h1, h2⟩
      · simp [h1]
      · simp [h1, h2]

/-- Witness for `first_tool_call_output_spec`: a response without an
`output` key fails with `noToolCall`, and on the spec's generic example
the single `tool_call` item is returned first-match. -/
theorem first_tool_call_output_spec_witness :
    first_tool_call_output (Json.obj []) "web_search" = .error .noToolCall ∧
    first_tool_call_output
        (Json.obj [("output", Json.arr
          [Json.obj [("type", Json.str "tool_call"),
            ("tool_name", Json.str "web_search"),
            ("result", Json.arr [Json.str "r1", Json.str "r2"])]])])
        "web_search" =
      .ok (Json.obj [("type", Json.str "tool_call"),
        ("tool_name", Json.str "web_search"),
        ("result", Json.arr [Json.str "r1", Json.str "r2"])]) :=
  ⟨first_tool_call_output_spec.1 (Json.obj []) "web_search" rfl,
   first_tool_call_output_spec.2.2.2.1 _ "web_search" []
     (Json.obj [("type", Json.str "tool_call"),
       ("tool_name", Json.str "web_search"),
       ("result", Json.arr [Json.str "r1", Json.str "r2"])]) [] rfl
     (by intro x hx; cases hx) rfl⟩

/-! ### Claim C8: image-result extraction -/

/-- Claim C8: given a matched tool-call item, the `result`-field reader
returns a string result unchanged, returns the first element of a
non-empty array whose first element is a string, fails `missingResult`
when the field is absent, and fails `malformedResult` in every other case
(empty array, array with non-string first element, or a non-string
non-array value); `first_image_output` and `first_image_base64_output`
both apply exactly this reader to their matched item. -/
theorem readResultField_spec :
    (∀ call : Json, getKey call "result" = none →
        readResultField call = .error .missingResult) ∧
    (∀ (call : Json) (s : String), getKey call "result" = some (.str s) →
        readResultField call = .ok s) ∧
    (∀ (call : Json) (s : String) (rest : List Json),
        getKey call "result" = some (.arr (Json.str s :: rest)) →
        readResultField call = .ok s) ∧
    (∀ call : Json, getKey call "result" = some (.arr []) →
        readResultField call = .error .malformedResult) ∧
    (∀ (call x : Json) (rest : List Json),
        getKey call "result" = some (.arr (x :: rest)) →
        (∀ s, x ≠ Json.str s) →
        readResultField call = .error .malformedResult) ∧
    (∀ (call j : Json), getKey call "result" = some j →
        (∀ s, j ≠ Json.str s) → (∀ xs, j ≠ Json.arr xs) →
        readResultField call = .error .malformedResult) ∧
    (∀ (response call : Json),
        first_tool_call_output response "image_generation" = .ok call →
        first_image_output response = readResultField call) ∧
    (∀ (response call : Json),
        first_image_generation_call response = .ok call →
        first_image_base64_output response = readResultField call) := by
  refine ⟨?_, ?_, ?_, ?_, ?_, ?_, ?_, ?_⟩
  · intro call h; simp [readResultField, h]
  · intro call s h; simp [readResultField, h]
  · intro call s rest h; simp [readResultField, h]
  · intro call h; simp [readResultField, h]
  · intro call x rest h hne
    cases x <;> simp_all [readResultField]
  · intro call j h hs ha
    cases j <;> simp_all [readResultField]
  · intro response call h; simp [first_image_output, h]
  · intro response call h; simp [first_image_base64_output, h]

/-- Witness for `readResultField_spec`: the reader applied to concrete
items — a string result is returned as is, and an absent `result` field
fails with `missingResult`. -/
theorem readResultField_spec_witness :
    readResultField (Json.obj [("type", Json.str "image_generation_call"),
        ("result", Json.str "YWJj")]) = .ok "YWJj" ∧
    readResultField (Json.obj [("type", Json.str "image_generation_call")]) =
      .error .missingResult :=
  ⟨readResultField_spec.2.1 _ "YWJj" rfl,
   readResultField_spec.1 _ rfl⟩

/-! ### Claim C1: error precedence (corrected) -/

/-- Counterexample to claim C1: error precedence is enforced only by
first-text extraction.  On a response whose envelope carries a non-null
`error` object AND a valid `output` list with an image-generation call,
`first_text_output` does fail with the remote error, but tool-call
extraction and both image-result extractions ignore the error object and
return the tool result `"YWJj"` — contradicting "every extraction
operation fails with RemoteError … it never returns a text or tool
result". -/
theorem error_precedence_counterexample :
    first_image_output
        (Json.obj [("error", Json.obj [("type", Json.str "server_error"),
            ("message", Json.str "boom")]),
          ("output", Json.arr [Json.obj
            [("type", Json.str "image_generation_call"),
             ("result", Json.str "YWJj")]])]) = .ok "YWJj" ∧
    first_image_base64_output
        (Json.obj [("error", Json.obj [("type", Json.str "server_error"),
            ("message", Json.str "boom")]),
          ("output", Json.arr [Json.obj
            [("type", Json.str "image_generation_call"),
             ("result", Json.str "YWJj")]])]) = .ok "YWJj" ∧
    first_tool_call_output
        (Json.obj [("error", Json.obj [("type", Json.str "server_error"),
            ("message", Json.str "boom")]),
          ("output", Json.arr [Json.obj
            [("type", Json.str "image_generation_call"),
             ("result", Json.str "YWJj")]])]) "image_generation" =
      .ok (Json.obj [("type", Json.str "image_generation_call"),
        ("result", Json.str "YWJj")]) ∧
    first_text_output
        (Json.obj [("error", Json.obj [("type", Json.str "server_error"),
            ("message", Json.str "boom")]),
          ("output", Json.arr [Json.obj
            [("type", Json.str "image_generation_call"),
             ("result", Json.str "YWJj")]])]) =
      .error (.remoteError "server_error" "boom") :=
  ⟨rfl, rfl, rfl, rfl⟩

/-- Claim C1 as amended: only first-text extraction enforces error
precedence.  When the envelope carries a non-null error object,
`first_text_output` fails with `remoteError` taken from it, the `type`
and `message` sub-fields defaulting to `"error"` / `"unknown error"` when
missing; tool-call extraction and both image-result extractions are
insensitive to the error object — their result depends only on the
response's `output` field. -/
theorem error_precedence_amended :
    (∀ (response e : Json) (ty msg : String),
        getKey response "error" = some e → e.isNull = false →
        getKey e "type" = some (.str ty) →
        getKey e "message" = some (.str msg) →
        first_text_output response = .error (.remoteError ty msg)) ∧
    (∀ (response e : Json),
        getKey response "error" = some e → e.isNull = false →
        getKey e "type" = none → getKey e "message" = none →
        first_text_output response =
          .error (.remoteError "error" "unknown error")) ∧
    (∀ (r₁ r₂ : Json) (toolType : String),
        getKey r₁ "output" = getKey r₂ "output" →
        first_tool_call_output r₁ toolType =
          first_tool_call_output r₂ toolType) ∧
    (∀ r₁ r₂ : Json, getKey r₁ "output" = getKey r₂ "output" →
        first_image_output r₁ = first_image_output r₂) ∧
    (∀ r₁ r₂ : Json, getKey r₁ "output" = getKey r₂ "output" →
        first_image_base64_output r₁ = first_image_base64_output r₂) := by
  have htool : ∀ (r₁ r₂ : Json) (toolType : String),
      getKey r₁ "output" = getKey r₂ "output" →
      first_tool_call_output r₁ toolType =
        first_tool_call_output r₂ toolType := by
    intro r₁ r₂ toolType h
    rw [first_tool_call_output, first_tool_call_output, h]
  refine ⟨?_, ?_, htool, ?_, ?_⟩
  · intro response e ty msg he hne hty hmsg
    simp [first_text_output, errorCheck, he, hne, hty, hmsg]
  · intro response e he hne hty hmsg
    simp [first_text_output, errorCheck, he, hne, hty, hmsg]
  · intro r₁ r₂ h
    rw [first_image_output, first_image_output,
      htool r₁ r₂ "image_generation" h]
  · intro r₁ r₂ h
    rw [first_image_base64_output, first_image_base64_output,
      first_image_generation_call, first_image_generation_call, h]

/-- Witness for `error_precedence_amended`: the defaulting path at a
concrete response whose error object has neither `type` nor `message`,
and insensitivity of tool-call extraction to the error object at a
concrete pair of responses. -/
theorem error_precedence_amended_witness :
    first_text_output (Json.obj [("error", Json.obj [("param", Json.null)])]) =
      .error (.remoteError "error" "unknown error") ∧
    first_tool_call_output
        (Json.obj [("error", Json.obj [("param", Json.null)]),
          ("output", Json.null)]) "web_search" =
      first_tool_call_output (Json.obj [("output", Json.null)]) "web_search" :=
  ⟨error_precedence_amended.2.1 _ (Json.obj [("param", Json.null)]) rfl rfl
     rfl rfl,
   error_precedence_amended.2.2.1 _ _ "web_search" rfl⟩

/-! ### Claim C5: data-URL round trip -/

theorem marker_no_self_overlap :
    ∀ k : Nat, k < 8 → 0 < k →
      ";base64,".data.take k ++ ";base64,".data.take (8 - k) ≠
        ";base64,".data := by decide

/-- A marker occurrence that starts inside `t` and would straddle into a
following full marker must already lie entirely inside `t`: the marker
`;base64,` has no proper prefix that is also a suffix. -/
theorem marker_prefix_of_prefix_append (t rest : List Char) (hne : t ≠ [])
    (h : ";base64,".data <+: t ++ (";base64,".data ++ rest)) :
    ";base64,".data <+: t := by
  have hm8 : (";base64,".data).length = 8 := rfl
  by_cases hl : 8 ≤ t.length
  · have heq := List.prefix_iff_eq_take.mp h
    rw [hm8, List.take_append_of_le_length hl] at heq
    rw [heq]
    exact List.take_prefix 8 t
  · push_neg at hl
    have hk0 : 0 < t.length := List.length_pos.mpr hne
    exfalso
    have heq := List.prefix_iff_eq_take.mp h
    rw [hm8, List.take_append_eq_append_take,
      List.take_of_length_le (le_of_lt hl),
      List.take_append_eq_append_take] at heq
    have h0 : 8 - t.length - (";base64,".data).length = 0 := by
      rw [hm8]; omega
    rw [h0, List.take_zero, List.append_nil] at heq
    have h2 := congrArg (List.take t.length) heq
    rw [List.take_left] at h2
    refine marker_no_self_overlap t.length hl hk0 ?_
    rw [h2]
    exact heq.symm

/-- The first `;base64,` occurrence in `pre ++ ";base64," ++ rest` is the
explicit one, provided `pre` itself contains no occurrence. -/
theorem findSub_marker (rest : List Char) :
    ∀ pre : List Char, ¬ (";base64,".data <:+: pre) →
      findSub ";base64,".data (pre ++ (";base64,".data ++ rest)) =
        some pre.length := by
  intro pre
  induction pre with
  | nil =>
      intro _
      have hp : (";base64,".data).isPrefixOf (";base64,".data ++ rest) = true :=
        List.isPrefixOf_iff_prefix.mpr (List.prefix_append _ _)
      simp [findSub, hp]
  | cons c pre' ih =>
      intro hni
      have hstep :
          ¬ (";base64,".data).isPrefixOf
              (c :: (pre' ++ (";base64,".data ++ rest))) = true := by
        intro hp
        have hpre := List.isPrefixOf_iff_prefix.mp hp
        have := marker_prefix_of_prefix_append (c :: pre') rest (by simp)
          (by simp only [List.cons_append] at hpre ⊢; exact hpre)
        exact hni this.isInfix
      have hni' : ¬ (";base64,".data <:+: pre') :=
        fun hinf => hni (List.infix_cons hinf)
      rw [List.cons_append, findSub, if_neg hstep, ih hni']
      rfl

/-- `;base64,` cannot occur anywhere in `"data:" ++ m` when it does not
occur in `m`: an occurrence cannot start inside the 5-character `data:`
prefix (the marker starts with `;`, which `data:` does not contain). -/
theorem marker_not_infix_data (m : List Char)
    (hm : ¬ (";base64,".data <:+: m)) :
    ¬ (";base64,".data <:+: ("data:".data ++ m)) := by
  intro hinf
  obtain ⟨s, t, hst⟩ := hinf
  rw [List.append_assoc] at hst
  have h2 := congrArg (List.drop s.length) hst
  rw [List.drop_left, List.drop_append_eq_append_drop] at h2
  by_cases hs : 5 ≤ s.length
  · apply hm
    have hdata : ("data:".data).drop s.length = [] :=
      List.drop_eq_nil_of_le (by simpa using hs)
    rw [hdata, List.nil_append] at h2
    have hpre :
        (";base64,".data) <+: m.drop (s.length - ("data:".data).length) :=
      ⟨t, h2⟩
    exact hpre.isInfix.trans (List.drop_suffix _ m).isInfix
  · push_neg at hs
    have hm0 : s.length - ("data:".data).length = 0 := by
      have h5 : ("data:".data).length = 5 := rfl
      omega
    rw [hm0, List.drop_zero] at h2
    set k := s.length with hk
    interval_cases k <;> simp at h2

/-- A nonempty pattern has no occurrence exactly when `findSub` reports
`none` (`std::string::find` returning `npos`). -/
theorem findSub_eq_none_of_not_infix (pat : List Char) (hpat : pat ≠ []) :
    ∀ s : List Char, ¬ (pat <:+: s) → findSub pat s = none := by
  intro s
  induction s with
  | nil =>
      intro _
      have hemp : pat.isEmpty = false := by
        cases pat with
        | nil => exact absurd rfl hpat
        | cons a l => rfl
      simp [findSub, hemp]
  | cons c s' ih =>
      intro hni
      have hstep : ¬ pat.isPrefixOf (c :: s') = true := by
        intro hp
        exact hni (List.isPrefixOf_iff_prefix.mp hp).isInfix
      have hni' : ¬ (pat <:+: s') := fun hinf => hni (List.infix_cons hinf)
      rw [findSub, if_neg hstep, ih hni']
      rfl

/-- Claim C5: for every byte sequence `b` and MIME string `m` not
containing the `;base64,` marker,
`split_data_url (bytes_to_data_url b m) = (m, encodeBase64 b)`; and
`split_data_url` fails with a `FormatError` on any string lacking the
`data:` prefix (`missingPrefix`) or the `;base64,` marker
(`missingMarker`). -/
theorem split_data_url_round_trip :
    (∀ (b : List Nat) (m : String), ¬ (";base64,".data <:+: m.data) →
        split_data_url (bytes_to_data_url b m) =
          .ok (m.data, encodeBase64 b)) ∧
    (∀ s : List Char, ¬ ("data:".data <+: s) →
        split_data_url s = .error .missingPrefix) ∧
    (∀ s : List Char, "data:".data <+: s → ¬ (";base64,".data <:+: s) →
        split_data_url s = .error .missingMarker) := by
  refine ⟨?_, ?_, ?_⟩
  · intro b m hm
    have hurl : bytes_to_data_url b m =
        ("data:".data ++ m.data) ++ (";base64,".data ++ encodeBase64 b) := by
      rw [bytes_to_data_url]
      simp [List.append_assoc]
    have hpre : ("data:".data).isPrefixOf (bytes_to_data_url b m) = true := by
      rw [hurl, List.append_assoc]
      exact List.isPrefixOf_iff_prefix.mpr (List.prefix_append _ _)
    have hfind : findSub ";base64,".data (bytes_to_data_url b m) =
        some ("data:".data ++ m.data).length := by
      rw [hurl]
      exact findSub_marker (encodeBase64 b) ("data:".data ++ m.data)
        (marker_not_infix_data m.data hm)
    have hlen : ("data:".data ++ m.data).length = 5 + m.data.length := by
      simp [List.length_append]
      omega
    have hdrop5 : (bytes_to_data_url b m).drop 5 =
        m.data ++ (";base64,".data ++ encodeBase64 b) := by
      rw [hurl, List.append_assoc,
        show (5 : Nat) = ("data:".data).length from rfl, List.drop_left]
    have hmime :
        ((bytes_to_data_url b m).drop 5).take (5 + m.data.length - 5) =
          m.data := by
      rw [hdrop5, show 5 + m.data.length - 5 = m.data.length by omega,
        List.take_left]
    have hpay : (bytes_to_data_url b m).drop (5 + m.data.length + 8) =
        encodeBase64 b := by
      have hurl2 : bytes_to_data_url b m =
          (("data:".data ++ m.data) ++ ";base64,".data) ++ encodeBase64 b := by
        rw [hurl]
        simp [List.append_assoc]
      have hlen2 : 5 + m.data.length + 8 =
          (("data:".data ++ m.data) ++ ";base64,".data).length := by
        simp [List.length_append]
        omega
      rw [hurl2, hlen2, List.drop_left]
    rw [split_data_url, if_pos hpre, hfind, hlen]
    show Except.ok
        (((bytes_to_data_url b m).drop 5).take (5 + m.data.length - 5),
          (bytes_to_data_url b m).drop (5 + m.data.length + 8)) =
      Except.ok (m.data, encodeBase64 b)
    rw [hmime, hpay]
  · intro s hp
    have hfalse : ("data:".data).isPrefixOf s = false := by
      rw [← Bool.not_eq_true]
      intro h
      exact hp (List.isPrefixOf_iff_prefix.mp h)
    simp [split_data_url, hfalse]
  · intro s hp hni
    have hpre : ("data:".data).isPrefixOf s = true :=
      List.isPrefixOf_iff_prefix.mpr hp
    have hfind : findSub ";base64,".data s = none :=
      findSub_eq_none_of_not_infix ";base64,".data (by decide) s hni
    rw [split_data_url, if_pos hpre, hfind]

/-- Witness for `split_data_url_round_trip` at concrete inputs: the round
trip on the bytes `[1, 2]` with MIME type `image/png`, and the failure on
a string without the `data:` prefix. -/
theorem split_data_url_round_trip_witness :
    split_data_url (bytes_to_data_url [1, 2] "image/png") =
      .ok ("image/png".data, encodeBase64 [1, 2]) ∧
    split_data_url "http://example.com".data = .error .missingPrefix :=
  ⟨split_data_url_round_trip.1 [1, 2] "image/png" (by decide),
   split_data_url_round_trip.2.1 "http://example.com".data (by decide)⟩
